import Mathlib

/-!
Verification of the sdk-plugin operation classification and code synthesis
engine (packages/sdk-plugin/src/visitor.ts and its operation/type-utility
modules) against its specification.

JavaScript strings are modelled as lists of characters (`Str`); GraphQL AST
nodes are modelled as inductive types mirroring the node shapes the source
dispatches on.  All definitions are translated from the TypeScript source,
except those whose module is absent from the repository snapshot
(variable.ts, constants.ts, print.ts): those are modelled from the spec and
marked as such in their doc comments.
-/

namespace LinearSdk

/-- JavaScript strings, modelled as lists of UTF-16-ish characters. -/
abbrev Str := List Char

/-- Models JavaScript `String.prototype.startsWith` (case-sensitive). -/
def jsStartsWith (s pre : Str) : Bool :=
  pre.isPrefixOf s

/-- Models JavaScript `String.prototype.toLowerCase` restricted to the basic
latin letters appearing in GraphQL names. -/
def toLowerStr (s : Str) : Str :=
  s.map Char.toLower

/--
A GraphQL input type reference as dispatched on by `reduceTypeName` /
`reduceListType` in the source: a plain string, a `NameNode` (kind NAME,
holding a string value), a `NamedTypeNode` (kind NAMED_TYPE, holding a
NameNode), a `NonNullTypeNode`, a `ListTypeNode`, or any other, unrecognized
node shape (`other`), which the source handles through its final fallback
branch.
-/
inductive TypeRef where
  /-- a bare string -/
  | str (s : Str)
  /-- a NameNode: kind NAME, with its string value -/
  | nameN (value : Str)
  /-- a NamedTypeNode: kind NAMED_TYPE, with its `name` node -/
  | named (name : TypeRef)
  /-- a NonNullTypeNode: kind NON_NULL_TYPE, with its inner `type` -/
  | nonNull (t : TypeRef)
  /-- a ListTypeNode: kind LIST_TYPE, with its inner `type` -/
  | list (t : TypeRef)
  /-- any unrecognized node shape, with whatever `kind` it carries -/
  | other (kind : Str)
deriving DecidableEq

/-- Translation of `reduceTypeName` (visitor.ts utils): get the deepest type
name from any type node, falling back to the sentinel "UNKNOWN_TYPE_NAME" on
unrecognized node shapes.  The source's NAME arm recurses on the node's
string value, which the string arm returns unchanged; that recursive call is
unfolded one step here so the recursion stays structural. -/
def reduceTypeName : TypeRef → Str
  | .str s => s
  | .nonNull t => reduceTypeName t
  | .named n => reduceTypeName n
  | .nameN v => v
  | .list t => reduceTypeName t
  | .other _ => "UNKNOWN_TYPE_NAME".data

/-- Translation of `reduceListType` (visitor.ts utils): get the list element
type name from any type node, `none` when the node is not a list. -/
def reduceListType : TypeRef → Option Str
  | .str _ => none
  | .nonNull t => reduceListType t
  | .named _ => none
  | .nameN _ => none
  | .list t => some (reduceTypeName t)
  | .other _ => none

/-- Strips every non-null wrapper from a type reference; used only to state
the specification-level characterization of `reduceListType`. -/
def unwrapNonNull : TypeRef → TypeRef
  | .nonNull t => unwrapNonNull t
  | t => t

/-- Claim C8: for every input type reference, `reduceTypeName` returns the
innermost base name — it strips non-null and list wrappers, unwraps named
and name nodes down to their string, and is total: an unrecognized node
shape yields the fixed sentinel placeholder "UNKNOWN_TYPE_NAME" instead of a
failure. -/
theorem claim_C8 :
    (∀ s, reduceTypeName (TypeRef.str s) = s) ∧
    (∀ v, reduceTypeName (TypeRef.nameN v) = v) ∧
    (∀ n, reduceTypeName (TypeRef.named n) = reduceTypeName n) ∧
    (∀ t, reduceTypeName (TypeRef.nonNull t) = reduceTypeName t) ∧
    (∀ t, reduceTypeName (TypeRef.list t) = reduceTypeName t) ∧
    (∀ k, reduceTypeName (TypeRef.other k) = "UNKNOWN_TYPE_NAME".data) :=
  ⟨fun _ => rfl, fun _ => rfl, fun _ => rfl, fun _ => rfl, fun _ => rfl,
    fun _ => rfl⟩

/-- Claim C9: `reduceListType` returns the element type name exactly when the
reference, after unwrapping non-null wrappers, is a list (the element name
being its reduced type name), and returns `none` otherwise; in particular a
bare named type returns `none`. -/
theorem claim_C9 :
    (∀ t, reduceListType t =
      (match unwrapNonNull t with
        | TypeRef.list inner => some (reduceTypeName inner)
        | _ => none)) ∧
    (∀ n, reduceListType (TypeRef.named n) = none) := by
  refine ⟨fun t => ?_, fun _ => rfl⟩
  induction t with
  | str s => rfl
  | nameN v => rfl
  | named n ih => rfl
  | nonNull t ih => simpa [reduceListType, unwrapNonNull] using ih
  | list t ih => rfl
  | other k => rfl

/-- A declared operation variable: its name, its type reference, and whether
a default value is attached. -/
structure VariableDefinition where
  name : Str
  type : TypeRef
  hasDefault : Bool

/-- A selection inside a selection set: a field (with a name and its own
sub-selections), a fragment spread, or an inline fragment. -/
inductive Selection where
  | field (name : Str) (selections : List Selection)
  | fragmentSpread (name : Str)
  | inlineFragment (selections : List Selection)

/-- Whether a selection has kind FIELD. -/
def Selection.isField : Selection → Bool
  | .field _ _ => true
  | _ => false

/-- The name of a selection when it is a field. -/
def Selection.fieldNameOf : Selection → Option Str
  | .field n _ => some n
  | _ => none

/-- A selection set node, holding its list of selections. -/
structure SelectionSetNode where
  selections : List Selection

/-- A parsed GraphQL operation definition: its operation keyword (query or
mutation), optional declared name, variable definitions, directives, and
selection set. -/
structure OperationDefinitionNode where
  operation : Str
  name : Option Str
  variableDefinitions : List VariableDefinition
  directives : List Str
  selectionSet : SelectionSetNode

/-- Modelled from the spec: the conventional id parameter name from the
missing constants module (`c.ID_NAME`; spec §6 and §9 `idParamName`). -/
def ID_NAME : Str := "id".data

/-- Modelled from the spec: the conventional id scalar type name used by
`isIdVariable` from the missing constants module (spec 4.2, §9
`idTypeName`). -/
def ID_SCALAR_TYPE : Str := "ID".data

/-- Modelled from the spec: `isIdVariable` from the missing variable module —
a variable qualifies as an id-variable iff its name equals the conventional
id name AND its reduced type name equals the conventional id scalar type
name (spec 4.2). -/
def isIdVariable (v : VariableDefinition) : Bool :=
  v.name == ID_NAME && reduceTypeName v.type == ID_SCALAR_TYPE

/-- Translation of `getFirstFieldName` (visitor.ts operation module): the
name of the first field selection of the operation, ignoring non-field
selections; `none` when there is no field selection. -/
def getFirstFieldName (operation : OperationDefinitionNode) : Option Str :=
  (operation.selectionSet.selections.find? Selection.isField).bind
    Selection.fieldNameOf

/-- Translation of `hasIdVariable` (visitor.ts operation module): the
operation declares some id-variable. -/
def hasIdVariable (o : OperationDefinitionNode) : Bool :=
  o.variableDefinitions.any isIdVariable

/-- Translation of `getOperationName` (visitor.ts operation module). -/
def getOperationName (o : OperationDefinitionNode) : Option Str :=
  o.name

/-- Translation of `isParentOperation`: the operation has an id variable and
its name strictly equals (JS `===`, including the undefined = undefined
case) its first field name. -/
def isParentOperation (o : OperationDefinitionNode) : Bool :=
  hasIdVariable o && (getOperationName o == getFirstFieldName o)

/-- Translation of `isChildOperation`: the operation has an id variable and
its name (when defined) starts — case-sensitively, as JS `startsWith` — with
its first field name, the latter defaulting to the empty string (JS
`?? ""`). -/
def isChildOperation (o : OperationDefinitionNode) : Bool :=
  hasIdVariable o &&
    (match getOperationName o with
      | some n => jsStartsWith n ((getFirstFieldName o).getD [])
      | none => false)

/-- The chain role of an operation (TS enum `SdkChainType`). -/
inductive SdkChainType where
  | root
  | parent
  | child
deriving DecidableEq

/-- An operation definition annotated with chain information (TS interface
`SdkOperationDefinition`); `chainKey` is `none` when the property is absent
or set to `undefined`. -/
structure SdkOperationDefinition extends OperationDefinitionNode where
  chainType : SdkChainType
  chainKey : Option Str := none

/-- Translation of `processSdkOperation`: spread the operation into a new
object and add the chain information. -/
def processSdkOperation (operation : OperationDefinitionNode) :
    SdkOperationDefinition :=
  if isParentOperation operation then
    { toOperationDefinitionNode := operation
      chainType := SdkChainType.parent
      chainKey := getFirstFieldName operation }
  else if isChildOperation operation then
    { toOperationDefinitionNode := operation
      chainType := SdkChainType.child
      chainKey := getFirstFieldName operation }
  else
    { toOperationDefinitionNode := operation
      chainType := SdkChainType.root }

/-- Specification-level id-variable presence: some declared variable is named
with the conventional id name and reduces to the conventional id scalar
type. -/
def HasIdVariableP (o : OperationDefinitionNode) : Prop :=
  ∃ v ∈ o.variableDefinitions,
    v.name = ID_NAME ∧ reduceTypeName v.type = ID_SCALAR_TYPE

instance (o : OperationDefinitionNode) : Decidable (HasIdVariableP o) :=
  List.decidableBEx _ o.variableDefinitions

/-- The child condition exactly as the claim states it: the declared name
starts with the first field selection's name as a case-insensitive prefix
(both the name and the first field are required to exist for the condition
to read meaningfully). -/
def specCIStartsWith (o : OperationDefinitionNode) : Bool :=
  match getOperationName o, getFirstFieldName o with
  | some n, some f => jsStartsWith (toLowerStr n) (toLowerStr f)
  | _, _ => false

theorem hasIdVariable_iff (o : OperationDefinitionNode) :
    hasIdVariable o = true ↔ HasIdVariableP o := by
  simp [hasIdVariable, HasIdVariableP, isIdVariable, List.any_eq_true,
    Bool.and_eq_true]

theorem isParentOperation_iff (o : OperationDefinitionNode) :
    isParentOperation o = true ↔
      HasIdVariableP o ∧ getOperationName o = getFirstFieldName o := by
  simp [isParentOperation, Bool.and_eq_true, hasIdVariable_iff]

theorem isChildOperation_iff (o : OperationDefinitionNode) :
    isChildOperation o = true ↔
      HasIdVariableP o ∧ ∃ n, getOperationName o = some n ∧
        jsStartsWith n ((getFirstFieldName o).getD []) = true := by
  cases h : getOperationName o with
  | none => simp [isChildOperation, h, Bool.and_eq_true, hasIdVariable_iff]
  | some n => simp [isChildOperation, h, Bool.and_eq_true, hasIdVariable_iff]

/-- Claim C1: classification assigns role parent with chain key equal to the
first field selection's name if and only if the operation has an id-variable
and the operation's declared name is exactly (JS `===`) equal to its first
field selection's name. -/
theorem claim_C1 (o : OperationDefinitionNode) :
    ((processSdkOperation o).chainType = SdkChainType.parent ∧
        (processSdkOperation o).chainKey = getFirstFieldName o) ↔
      (HasIdVariableP o ∧ getOperationName o = getFirstFieldName o) := by
  rw [← isParentOperation_iff]
  by_cases hp : isParentOperation o = true
  · simp [processSdkOperation, hp]
  · by_cases hc : isChildOperation o = true <;>
      simp [processSdkOperation, hp, hc]

/-- The conventional id variable used by the concrete test operations: name
`id`, type `ID!`. -/
def idVariable : VariableDefinition :=
  { name := "id".data
    type := TypeRef.nonNull (TypeRef.named (TypeRef.nameN ("ID".data)))
    hasDefault := false }

/-- Concrete operation `team(id: ID!) { team { ... } }`. -/
def opTeam : OperationDefinitionNode :=
  { operation := "query".data
    name := some ("team".data)
    variableDefinitions := [idVariable]
    directives := []
    selectionSet := { selections := [Selection.field ("team".data) []] } }

/-- Concrete operation `teamIssues(id: ID!) { team { ... } }`. -/
def opTeamIssues : OperationDefinitionNode :=
  { operation := "query".data
    name := some ("teamIssues".data)
    variableDefinitions := [idVariable]
    directives := []
    selectionSet := { selections := [Selection.field ("team".data) []] } }

/-- Concrete operation named `X` with an id variable whose first field is
`x`: its name matches the first field only case-insensitively. -/
def opCaseMismatch : OperationDefinitionNode :=
  { operation := "query".data
    name := some ("X".data)
    variableDefinitions := [idVariable]
    directives := []
    selectionSet := { selections := [Selection.field ("x".data) []] } }

/-- Concrete operation named `foo` with an id variable whose selection set
holds only a fragment spread, so it has no first field selection. -/
def opNoFieldSelection : OperationDefinitionNode :=
  { operation := "query".data
    name := some ("foo".data)
    variableDefinitions := [idVariable]
    directives := []
    selectionSet := { selections := [Selection.fragmentSpread ("f".data)] } }

theorem claim_C1_witness :
    (processSdkOperation opTeam).chainType = SdkChainType.parent ∧
      (processSdkOperation opTeam).chainKey = some ("team".data) := by
  have h := (claim_C1 opTeam).mpr (by decide)
  exact ⟨h.1, h.2.trans (by decide)⟩

/-- Claim C2 counterexample: the prefix check of `isChildOperation` is JS
`startsWith`, which is case-sensitive — the operation named `X` over first
field `x` satisfies the claim's case-insensitive condition yet is classified
root; and when no field selection exists the code compares against the empty
string, so the operation `foo` with only a fragment spread is classified
child although the claim's condition (which needs a first field name) is
false. -/
theorem claim_C2_cex :
    ((processSdkOperation opCaseMismatch).chainType ≠ SdkChainType.parent ∧
      HasIdVariableP opCaseMismatch ∧
      specCIStartsWith opCaseMismatch = true ∧
      (processSdkOperation opCaseMismatch).chainType ≠ SdkChainType.child) ∧
    ((processSdkOperation opNoFieldSelection).chainType ≠
        SdkChainType.parent ∧
      (processSdkOperation opNoFieldSelection).chainType =
        SdkChainType.child ∧
      (processSdkOperation opNoFieldSelection).chainKey =
        getFirstFieldName opNoFieldSelection ∧
      specCIStartsWith opNoFieldSelection = false) := by
  decide

/-- Claim C2 (amended): for every operation not classified parent,
classification assigns role child with chain key equal to the first field
selection's name iff the operation has an id-variable and its declared name
exists and starts — case-sensitively — with the first field selection's
name, the latter taken as the empty string when no field selection exists. -/
theorem claim_C2 (o : OperationDefinitionNode)
    (hnp : (processSdkOperation o).chainType ≠ SdkChainType.parent) :
    ((processSdkOperation o).chainType = SdkChainType.child ∧
        (processSdkOperation o).chainKey = getFirstFieldName o) ↔
      (HasIdVariableP o ∧ ∃ n, getOperationName o = some n ∧
        jsStartsWith n ((getFirstFieldName o).getD []) = true) := by
  rw [← isChildOperation_iff]
  have hp : ¬(isParentOperation o = true) := fun h =>
    hnp (by simp [processSdkOperation, h])
  by_cases hc : isChildOperation o = true <;>
    simp [processSdkOperation, hp, hc]

theorem claim_C2_witness :
    (processSdkOperation opTeamIssues).chainType = SdkChainType.child ∧
      (processSdkOperation opTeamIssues).chainKey =
        getFirstFieldName opTeamIssues :=
  (claim_C2 opTeamIssues (by decide)).mpr (by decide)

/-- Claim C3 counterexample: an operation with an id variable, a declared
name, and no field selection in its selection set is classified child while
its chain key is absent, so a non-root role with an absent chain key is
reachable. -/
theorem claim_C3_cex :
    (processSdkOperation opNoFieldSelection).chainType = SdkChainType.child ∧
      (processSdkOperation opNoFieldSelection).chainKey = none := by
  decide

/-- Claim C3 (amended): for every operation definition whose selection set
contains at least one field selection, the classified operation has a chain
key present iff its role is not root. -/
theorem claim_C3 (o : OperationDefinitionNode)
    (hf : (getFirstFieldName o).isSome = true) :
    ((processSdkOperation o).chainKey.isSome = true ↔
      (processSdkOperation o).chainType ≠ SdkChainType.root) := by
  by_cases hp : isParentOperation o = true
  · simp [processSdkOperation, hp, hf]
  · by_cases hc : isChildOperation o = true <;>
      simp [processSdkOperation, hp, hc, hf]

theorem claim_C3_witness :
    (processSdkOperation opTeam).chainKey.isSome = true :=
  (claim_C3 opTeam (by decide)).mpr (by decide)

/-- Claim C4: an operation satisfying both the parent predicate and the
child predicate is classified parent, never child — the parent check is
evaluated strictly before the child check. -/
theorem claim_C4 (o : OperationDefinitionNode)
    (hp : isParentOperation o = true) (hc : isChildOperation o = true) :
    (processSdkOperation o).chainType = SdkChainType.parent := by
  simp [processSdkOperation, hp]

theorem claim_C4_witness :
    (processSdkOperation opTeam).chainType = SdkChainType.parent :=
  claim_C4 opTeam (by decide) (by decide)

/-- Claim C10: `processSdkOperation` copies every field of the input node
verbatim into its result (the embedding is a pure function, so the input is
not mutated), adds the `chainType` field, leaves the chain key absent for
root, and sets it to the first field selection's name for non-root roles. -/
theorem claim_C10 (o : OperationDefinitionNode) :
    (processSdkOperation o).toOperationDefinitionNode = o ∧
      ((processSdkOperation o).chainType = SdkChainType.root →
        (processSdkOperation o).chainKey = none) ∧
      ((processSdkOperation o).chainType ≠ SdkChainType.root →
        (processSdkOperation o).chainKey = getFirstFieldName o) := by
  by_cases hp : isParentOperation o = true
  · simp [processSdkOperation, hp]
  · by_cases hc : isChildOperation o = true <;>
      simp [processSdkOperation, hp, hc]

theorem claim_C10_witness :
    (processSdkOperation opTeam).toOperationDefinitionNode = opTeam ∧
      (processSdkOperation opTeam).chainKey = getFirstFieldName opTeam :=
  ⟨(claim_C10 opTeam).1, (claim_C10 opTeam).2.2 (by decide)⟩

/-- Modelled from the spec: the generated TypeScript type of the id
parameter, from the missing constants module (`c.ID_TYPE`). -/
def ID_TYPE : Str := "string".data

/-- Modelled from the spec: the name of the generated variables parameter,
from the missing constants module (`c.VARIABLE_NAME`). -/
def VARIABLE_NAME : Str := "variables".data

/-- An operation recorded by the visitor for sdk generation (TS interface
`SdkOperation`). -/
structure SdkOperation where
  node : SdkOperationDefinition
  documentVariableName : Str
  operationType : Str
  operationResultType : Str
  operationVariablesTypes : Str

/-- Modelled from the spec: `hasVariable` from the missing variable module —
true iff some declared variable has the given name (spec 4.2). -/
def hasVariable (o : SdkOperation) (name : Str) : Bool :=
  o.node.variableDefinitions.any (fun v => v.name == name)

/-- Modelled from the spec: `hasOtherVariable` from the missing variable
module — true iff some declared variable has a different name (spec 4.2). -/
def hasOtherVariable (o : SdkOperation) (name : Str) : Bool :=
  o.node.variableDefinitions.any (fun v => v.name != name)

/-- Whether a type reference is wrapped in a non-null wrapper. -/
def isNonNullType : TypeRef → Bool
  | .nonNull _ => true
  | _ => false

/-- Modelled from the spec: `hasOptionalVariable` from the missing variable
module — true iff some declared variable is nullable (no non-null wrapper)
or carries a default value (spec 4.2). -/
def hasOptionalVariable (o : SdkOperation) : Bool :=
  o.node.variableDefinitions.any (fun v => !isNonNullType v.type || v.hasDefault)

/-- Modelled from the spec: the part of the plugin configuration the
synthesizer reads — how to qualify generated type references with a
namespace (spec §6). -/
structure SdkPluginConfig where
  nspace : Option Str

/-- Modelled from the spec: `printNamespacedType` from the missing print
module — qualifies a generated type name with the configured namespace
(spec §6). -/
def printNamespacedType (config : SdkPluginConfig) (t : Str) : Str :=
  match config.nspace with
  | some ns => ns ++ ".".data ++ t
  | none => t

/-- Translation of `getChainParentKey`: the chain key when the operation
should create a chained api. -/
def getChainParentKey (o : SdkOperation) : Option Str :=
  if o.node.chainType = SdkChainType.parent then o.node.chainKey else none

/-- Translation of `getChainChildKey`: the chain key when the operation is
nested within a chained api. -/
def getChainChildKey (o : SdkOperation) : Option Str :=
  if o.node.chainType = SdkChainType.child then o.node.chainKey else none

/-- JavaScript truthiness of a possibly-undefined string: `undefined` and
the empty string are falsy. -/
def jsTruthyStr : Option Str → Bool
  | some s => !s.isEmpty
  | none => false

/-- JavaScript template interpolation of a possibly-undefined string:
`undefined` prints as the text "undefined". -/
def jsTemplateOpt : Option Str → Str
  | some s => s
  | none => "undefined".data

/-- Translation of `lowerFirst` (visitor.ts utils): lowercase the first
character of a string; the empty (or undefined) string yields "". -/
def lowerFirst : Str → Str
  | [] => []
  | c :: cs => Char.toLower c :: cs

/-- Modelled from the spec: `printOperationName` from the missing print
module — the operation's declared name with its first character lowercased
(spec 4.5: parent and root methods keep their name's first character
lowercased). -/
def printOperationName (o : SdkOperation) : Str :=
  lowerFirst (o.node.name.getD [])

/-- Models `s.replace(new RegExp("^" + k, "i"), "")` for GraphQL-name keys
(which contain no regex metacharacters): removes the first `k.length`
characters when `k` matches case-insensitively at the start, otherwise
leaves the string unchanged. -/
def stripStartCI (s k : Str) : Str :=
  if jsStartsWith (toLowerStr s) (toLowerStr k) then s.drop k.length else s

/-- Translation of `getSdkOperationName`: chained child operations have the
chain key removed from the front of the name and the remainder's first
character lowercased; every other operation keeps its printed name. -/
def getSdkOperationName (o : SdkOperation) : Str :=
  let nodeName := printOperationName o
  let chainChildKey := getChainChildKey o
  if jsTruthyStr chainChildKey then
    lowerFirst (stripStartCI nodeName (chainChildKey.getD []))
  else
    nodeName

/-- Translation of `getRequesterArgs`: the argument expression passed to the
transport (requester) call. -/
def getRequesterArgs (o : SdkOperation) : Str :=
  if hasVariable o ID_NAME then
    if hasOtherVariable o ID_NAME then
      "\x7b".data ++ ID_NAME ++ ", ...".data ++ VARIABLE_NAME ++ "\x7d".data
    else
      "\x7b".data ++ ID_NAME ++ "\x7d".data
  else
    VARIABLE_NAME

/-- One parameter of a generated function (TS interface `ArgDefinition`
from the args module, as constructed in the source). -/
structure ArgDefinition where
  name : Str
  optional : Bool
  type : Str
  description : Str
  defaultName : Option Str := none
deriving DecidableEq

/-- Translation of `getOperationArgs`: the parameter definitions of the
generated method for one operation. -/
def getOperationArgs (o : SdkOperation) (config : SdkPluginConfig) :
    List ArgDefinition :=
  let idArg : ArgDefinition :=
    { name := ID_NAME
      optional := false
      type := ID_TYPE
      description := ID_NAME ++ " to pass into the ".data ++ o.operationResultType }
  let variableType := printNamespacedType config o.operationVariablesTypes
  let variablesArg : ArgDefinition :=
    { name := VARIABLE_NAME
      optional := hasOptionalVariable o
      type := variableType
      description := "variables to pass into the ".data ++ o.operationResultType }
  if hasVariable o ID_NAME then
    let chainChildKey := getChainChildKey o
    if hasOtherVariable o ID_NAME then
      let variablesWithoutIdArg : ArgDefinition :=
        { variablesArg with
          type := "Omit<".data ++ variableType ++ ", \x27".data ++ ID_NAME
            ++ "\x27>".data
          description := "variables without ".data ++ jsTemplateOpt chainChildKey
            ++ " ".data ++ ID_NAME ++ " to pass into the ".data
            ++ o.operationResultType }
      if jsTruthyStr chainChildKey then [variablesWithoutIdArg]
      else [idArg, variablesWithoutIdArg]
    else
      if jsTruthyStr chainChildKey then [] else [idArg]
  else
    [variablesArg]

/-- Specification-level statement that some declared variable of the
operation bears exactly the given name. -/
def HasVarNamed (o : SdkOperation) (n : Str) : Prop :=
  ∃ v ∈ o.node.variableDefinitions, v.name = n

instance (o : SdkOperation) (n : Str) : Decidable (HasVarNamed o n) :=
  List.decidableBEx _ o.node.variableDefinitions

/-- Specification-level statement that some declared variable of the
operation bears a different name. -/
def HasOtherVarNamed (o : SdkOperation) (n : Str) : Prop :=
  ∃ v ∈ o.node.variableDefinitions, v.name ≠ n

instance (o : SdkOperation) (n : Str) : Decidable (HasOtherVarNamed o n) :=
  List.decidableBEx _ o.node.variableDefinitions

/-- Specification-level id-variable presence for a recorded sdk operation:
name and reduced type both match the id convention. -/
def HasIdVariableSdk (o : SdkOperation) : Prop :=
  HasIdVariableP o.node.toOperationDefinitionNode

instance (o : SdkOperation) : Decidable (HasIdVariableSdk o) :=
  inferInstanceAs (Decidable (HasIdVariableP _))

theorem hasVariable_iff (o : SdkOperation) (n : Str) :
    hasVariable o n = true ↔ HasVarNamed o n := by
  simp [hasVariable, HasVarNamed, List.any_eq_true]

theorem hasOtherVariable_iff (o : SdkOperation) (n : Str) :
    hasOtherVariable o n = true ↔ HasOtherVarNamed o n := by
  simp [hasOtherVariable, HasOtherVarNamed, List.any_eq_true]

/-- A variable named `id` whose type is `String!`, not the conventional id
scalar type: named like an id but not an id-variable. -/
def varIdString : VariableDefinition :=
  { name := "id".data
    type := TypeRef.nonNull (TypeRef.named (TypeRef.nameN ("String".data)))
    hasDefault := false }

/-- Concrete operation `foo(id: String!) { foo { ... } }`: it has a variable
named `id` but no id-variable, so it is classified root. -/
def opIdString : OperationDefinitionNode :=
  { operation := "query".data
    name := some ("foo".data)
    variableDefinitions := [varIdString]
    directives := []
    selectionSet := { selections := [Selection.field ("foo".data) []] } }

/-- The recorded sdk operation for `opIdString`. -/
def sdkOpIdString : SdkOperation :=
  { node := processSdkOperation opIdString
    documentVariableName := "FooDocument".data
    operationType := "query".data
    operationResultType := "FooQuery".data
    operationVariablesTypes := "FooQueryVariables".data }

/-- A further variable `filter: IssueFilter`. -/
def varFilter : VariableDefinition :=
  { name := "filter".data
    type := TypeRef.named (TypeRef.nameN ("IssueFilter".data))
    hasDefault := false }

/-- Concrete operation `teamIssues(id: ID!, filter: IssueFilter)` selecting
first field `team`: a child operation with a further variable. -/
def opTeamIssuesFilter : OperationDefinitionNode :=
  { operation := "query".data
    name := some ("teamIssues".data)
    variableDefinitions := [idVariable, varFilter]
    directives := []
    selectionSet := { selections := [Selection.field ("team".data) []] } }

/-- The recorded sdk operation for `opTeamIssuesFilter`. -/
def sdkOpTeamIssuesFilter : SdkOperation :=
  { node := processSdkOperation opTeamIssuesFilter
    documentVariableName := "TeamIssuesDocument".data
    operationType := "query".data
    operationResultType := "TeamIssuesQuery".data
    operationVariablesTypes := "TeamIssuesQueryVariables".data }

/-- The recorded sdk operation for `opTeamIssues` (child, id variable
only). -/
def sdkOpTeamIssues : SdkOperation :=
  { node := processSdkOperation opTeamIssues
    documentVariableName := "TeamIssuesDocument".data
    operationType := "query".data
    operationResultType := "TeamIssuesQuery".data
    operationVariablesTypes := "TeamIssuesQueryVariables".data }

/-- The recorded sdk operation for `opNoFieldSelection` (child with absent
chain key). -/
def sdkOpNoFieldSelection : SdkOperation :=
  { node := processSdkOperation opNoFieldSelection
    documentVariableName := "FooDocument".data
    operationType := "query".data
    operationResultType := "FooQuery".data
    operationVariablesTypes := "FooQueryVariables".data }

/-- A configuration with no namespace qualification. -/
def cfgPlain : SdkPluginConfig := { nspace := none }

/-- Claim C5 counterexample: the transport-call argument synthesis is keyed
on the presence of a variable *named* `id` (`hasVariable`), not on an
id-variable in the claim's sense (name and type both matching): the
operation `foo(id: String!)` has no id-variable, yet its requester argument
is the object containing just the id rather than the variables object. -/
theorem claim_C5_cex :
    ¬ HasIdVariableSdk sdkOpIdString ∧
      getRequesterArgs sdkOpIdString ≠ VARIABLE_NAME ∧
      getRequesterArgs sdkOpIdString =
        "\x7b".data ++ ID_NAME ++ "\x7d".data := by
  decide

/-- Claim C5 (amended): the synthesized transport-call argument is the
merged object literal (id first, spread of the variables after) when the
operation has a variable named `id` — the conventional id name, regardless
of that variable's type — and other variables too; the object containing
just the id when variables named `id` are the only ones; and the variables
object directly when no variable named `id` exists. -/
theorem claim_C5 (o : SdkOperation) :
    (HasVarNamed o ID_NAME → HasOtherVarNamed o ID_NAME →
      getRequesterArgs o =
        "\x7b".data ++ ID_NAME ++ ", ...".data ++ VARIABLE_NAME
          ++ "\x7d".data) ∧
    (HasVarNamed o ID_NAME → ¬ HasOtherVarNamed o ID_NAME →
      getRequesterArgs o = "\x7b".data ++ ID_NAME ++ "\x7d".data) ∧
    (¬ HasVarNamed o ID_NAME → getRequesterArgs o = VARIABLE_NAME) := by
  by_cases hv : hasVariable o ID_NAME = true
  · by_cases ho : hasOtherVariable o ID_NAME = true
    · exact ⟨fun _ _ => by simp [getRequesterArgs, hv, ho],
        fun _ hno => absurd ((hasOtherVariable_iff o ID_NAME).mp ho) hno,
        fun hno => absurd ((hasVariable_iff o ID_NAME).mp hv) hno⟩
    · refine ⟨fun _ h2 => absurd ((hasOtherVariable_iff o ID_NAME).mpr h2) ho,
        fun _ _ => by simp [getRequesterArgs, hv, ho],
        fun hno => absurd ((hasVariable_iff o ID_NAME).mp hv) hno⟩
  · have hv' : ¬ HasVarNamed o ID_NAME := fun hh =>
      hv ((hasVariable_iff o ID_NAME).mpr hh)
    exact ⟨fun h1 _ => absurd h1 hv', fun h1 _ => absurd h1 hv',
      fun _ => by simp [getRequesterArgs, hv]⟩

theorem claim_C5_witness :
    getRequesterArgs sdkOpTeamIssuesFilter =
      "\x7b".data ++ ID_NAME ++ ", ...".data ++ VARIABLE_NAME
        ++ "\x7d".data :=
  (claim_C5 sdkOpTeamIssuesFilter).1 (by decide) (by decide)

/-- Claim C6 counterexample: first, the method-argument synthesis is keyed
on a variable *named* `id`, not on an id-variable in the claim's sense — the
root operation `foo(id: String!)` has no id-variable yet gets an explicit id
parameter instead of the single variables parameter; second, a child
operation with an absent chain key (no field selection) also gets an
explicit id parameter although the claim says child operations omit it. -/
theorem claim_C6_cex :
    (¬ HasIdVariableSdk sdkOpIdString ∧
      (getOperationArgs sdkOpIdString cfgPlain).map ArgDefinition.name ≠
        [VARIABLE_NAME] ∧
      (getOperationArgs sdkOpIdString cfgPlain).map ArgDefinition.name =
        [ID_NAME]) ∧
    (HasIdVariableSdk sdkOpNoFieldSelection ∧
      sdkOpNoFieldSelection.node.chainType = SdkChainType.child ∧
      (getOperationArgs sdkOpNoFieldSelection cfgPlain).map
          ArgDefinition.name = [ID_NAME]) := by
  decide

/-- Claim C6 (amended): for every classified operation with a variable named
`id` (the conventional id name, regardless of its type): if its role is not
child, the generated method's parameter list contains an explicit id
parameter; if its role is child with a present, nonempty chain key, the id
parameter is omitted and, when other variables exist, the single variables
parameter's type excludes the id field; and for every operation with no
variable named `id`, the method takes the single variables parameter typed
from the operation's variable type. -/
theorem claim_C6 (o : SdkOperation) (config : SdkPluginConfig) :
    (HasVarNamed o ID_NAME → o.node.chainType ≠ SdkChainType.child →
      ∃ a ∈ getOperationArgs o config, a.name = ID_NAME) ∧
    (HasVarNamed o ID_NAME → o.node.chainType = SdkChainType.child →
      jsTruthyStr o.node.chainKey = true →
      ((∀ a ∈ getOperationArgs o config, a.name ≠ ID_NAME) ∧
        (HasOtherVarNamed o ID_NAME →
          (getOperationArgs o config).map ArgDefinition.type =
            ["Omit<".data ++ printNamespacedType config o.operationVariablesTypes
              ++ ", \x27".data ++ ID_NAME ++ "\x27>".data]))) ∧
    (¬ HasVarNamed o ID_NAME →
      getOperationArgs o config =
        [{ name := VARIABLE_NAME
           optional := hasOptionalVariable o
           type := printNamespacedType config o.operationVariablesTypes
           description := "variables to pass into the ".data
             ++ o.operationResultType }]) := by
  refine ⟨fun h1 h2 => ?_, fun h1 h2 h3 => ?_, fun h1 => ?_⟩
  · have hv := (hasVariable_iff o ID_NAME).mpr h1
    have hk : getChainChildKey o = none := by simp [getChainChildKey, h2]
    by_cases ho : hasOtherVariable o ID_NAME = true <;>
      simp [getOperationArgs, hv, ho, hk, jsTruthyStr]
  · have hv := (hasVariable_iff o ID_NAME).mpr h1
    have hk : getChainChildKey o = o.node.chainKey := by
      simp [getChainChildKey, h2]
    by_cases ho : hasOtherVariable o ID_NAME = true
    · constructor
      · simp [getOperationArgs, hv, ho, hk, h3]
        decide
      · intro _
        simp [getOperationArgs, hv, ho, hk, h3]
    · constructor
      · simp [getOperationArgs, hv, ho, hk, h3]
      · intro hother
        exact absurd ((hasOtherVariable_iff o ID_NAME).mpr hother) ho
  · have hv : ¬ (hasVariable o ID_NAME = true) := fun hh =>
      h1 ((hasVariable_iff o ID_NAME).mp hh)
    simp [getOperationArgs, hv]

/-- The recorded sdk operation for `opTeam` (parent). -/
def sdkOpTeam : SdkOperation :=
  { node := processSdkOperation opTeam
    documentVariableName := "TeamDocument".data
    operationType := "query".data
    operationResultType := "TeamQuery".data
    operationVariablesTypes := "TeamQueryVariables".data }

theorem claim_C6_witness :
    ∃ a ∈ getOperationArgs sdkOpTeam cfgPlain, a.name = ID_NAME :=
  (claim_C6 sdkOpTeam cfgPlain).1 (by decide) (by decide)

theorem toLower_idem (c : Char) :
    Char.toLower (Char.toLower c) = Char.toLower c := by
  unfold Char.toLower
  by_cases h : c.toNat ≥ 65 ∧ c.toNat ≤ 90
  · rw [if_pos h]
    have hvalid : (c.toNat + 32).isValidChar := by
      left
      omega
    have hv : (Char.ofNat (c.toNat + 32)).toNat = c.toNat + 32 := by
      simp only [Char.ofNat]
      rw [dif_pos hvalid]
      rfl
    rw [if_neg]
    intro hcon
    rw [hv] at hcon
    omega
  · rw [if_neg h, if_neg h]

theorem toLowerStr_lowerFirst (s : Str) :
    toLowerStr (lowerFirst s) = toLowerStr s := by
  cases s with
  | nil => rfl
  | cons c cs => simp [toLowerStr, lowerFirst, toLower_idem]

theorem lowerFirst_stripStartCI (n k : Str) (hpre : k.isPrefixOf n = true) :
    lowerFirst (stripStartCI (lowerFirst n) k) =
      lowerFirst (stripStartCI n k) := by
  have hci : jsStartsWith (toLowerStr n) (toLowerStr k) = true := by
    show (toLowerStr k).isPrefixOf (toLowerStr n) = true
    rw [ List.isPrefixOf_iff_prefix] at hpre ⊢
    exact hpre.map Char.toLower
  have hci2 : jsStartsWith (toLowerStr (lowerFirst n)) (toLowerStr k) = true := by
    rw [toLowerStr_lowerFirst]
    exact hci
  rw [stripStartCI, stripStartCI, if_pos hci, if_pos hci2]
  cases k with
  | nil =>
    cases n with
    | nil => rfl
    | cons c cs => simp [lowerFirst, toLower_idem]
  | cons a as =>
    cases n with
    | nil => rfl
    | cons c cs => rfl

theorem processSdkOperation_toNode (o : OperationDefinitionNode) :
    (processSdkOperation o).toOperationDefinitionNode = o := by
  by_cases hp : isParentOperation o = true
  · simp [processSdkOperation, hp]
  · by_cases hc : isChildOperation o = true <;>
      simp [processSdkOperation, hp, hc]

/-- Claim C7: for every classified operation whose role is child (with its
chain key), the emitted method name equals the raw operation name with the
chain-key prefix stripped case-insensitively and the first character of the
remainder lowercased; operations whose role is not child keep their printed
(first-character-lowercased) name without prefix stripping. -/
theorem claim_C7 (raw : OperationDefinitionNode) (o : SdkOperation)
    (hnode : o.node = processSdkOperation raw) :
    (∀ k, o.node.chainType = SdkChainType.child → o.node.chainKey = some k →
      getSdkOperationName o =
        lowerFirst (stripStartCI (raw.name.getD []) k)) ∧
    (o.node.chainType ≠ SdkChainType.child →
      getSdkOperationName o = printOperationName o) := by
  constructor
  · intro k hct hk
    have hct' : (processSdkOperation raw).chainType = SdkChainType.child := by
      rw [← hnode]
      exact hct
    have hk' : (processSdkOperation raw).chainKey = some k := by
      rw [← hnode]
      exact hk
    cases hpb : isParentOperation raw with
    | true =>
      exfalso
      simp [processSdkOperation, hpb] at hct'
    | false =>
      cases hcb : isChildOperation raw with
      | false =>
        exfalso
        simp [processSdkOperation, hpb, hcb] at hct'
      | true =>
        have hff : getFirstFieldName raw = some k := by
          simpa [processSdkOperation, hpb, hcb] using hk'
        obtain ⟨_, n, hname, hstarts⟩ := (isChildOperation_iff raw).mp hcb
        rw [hff] at hstarts
        have hnm : o.node.name = raw.name := by
          rw [hnode]
          show (processSdkOperation raw).toOperationDefinitionNode.name = _
          rw [processSdkOperation_toNode]
        have hkey : getChainChildKey o = some k := by
          simp [getChainChildKey, hct, hk]
        have hname' : raw.name = some n := hname
        rw [getSdkOperationName, hkey]
        rw [printOperationName, hnm, hname']
        simp only [Option.getD_some]
        cases k with
        | nil =>
          simp [jsTruthyStr, stripStartCI, jsStartsWith]
        | cons a as =>
          simp only [jsTruthyStr, List.isEmpty_cons, Bool.not_false,
            if_true]
          exact lowerFirst_stripStartCI n (a :: as) hstarts
  · intro hct
    have hkey : getChainChildKey o = none := by
      simp [getChainChildKey, hct]
    simp [getSdkOperationName, hkey, jsTruthyStr]

theorem claim_C7_witness :
    getSdkOperationName sdkOpTeamIssues = "issues".data := by
  have h := (claim_C7 opTeamIssues sdkOpTeamIssues rfl).1 ("team".data)
    (by decide) (by decide)
  exact h.trans (by decide)

end LinearSdk
